import Mathlib

/-!
Shallow embedding of the pomidor countdown timer (`src/main.rs`).

Strings typed by the user are modelled as `List Char`; Rust's `String::len`
counts UTF-8 bytes, so the embedding carries an explicit `byteLen`.
`std::time::Duration` values are modelled as `Nat` (the program only ever
builds whole-second durations via `Duration::new(s, 0)`); instants are `Nat`
in the same time unit, with `Instant::elapsed` becoming truncated
subtraction `now - start`.
-/

namespace Pomidor

/-- UTF-8 byte length of a character list; this is what Rust's
`String::len` returns on the `input_str` field. -/
def byteLen (cs : List Char) : Nat := (cs.map Char.utf8Size).sum

/-- The `App` struct of `main.rs` (lines 24-31).  `time` is the configured
duration in seconds, `time_str` the displayed remaining-time text,
`reset` the pending-reset flag. -/
structure App where
  time_str : String
  edit_mode : Bool
  reset : Bool
  time : Nat
  input_str : List Char
  cursor_position : Nat
deriving DecidableEq

/-- `App::new` (lines 34-43). -/
def App.new : App :=
  { input_str := []
    edit_mode := false
    reset := false
    time := 0
    time_str := "00:00"
    cursor_position := 0 }

/-- `App::on_tick` (lines 45-47). -/
def App.on_tick (a : App) (remain : String) : App :=
  { a with time_str := remain }

/-- `App::clamp_cursor` (lines 81-83): `new_cursor_pos.clamp(0, self.input_str.len())`,
where `len()` is the byte length; on `Nat` the lower clamp at 0 is `min`. -/
def App.clamp_cursor (a : App) (new_cursor_pos : Nat) : Nat :=
  min new_cursor_pos (byteLen a.input_str)

/-- `App::move_cursor_left` (lines 85-88); `saturating_sub` is `Nat` subtraction. -/
def App.move_cursor_left (a : App) : App :=
  { a with cursor_position := a.clamp_cursor (a.cursor_position - 1) }

/-- `App::move_cursor_right` (lines 90-93). -/
def App.move_cursor_right (a : App) : App :=
  { a with cursor_position := a.clamp_cursor (a.cursor_position + 1) }

/-- `App::reset_cursor` (lines 95-97). -/
def App.reset_cursor (a : App) : App :=
  { a with cursor_position := 0 }

/-- `App::enter_char` (lines 49-53): `self.input_str.push(new_char)` appends at
the END of the string, then `move_cursor_right`. -/
def App.enter_char (a : App) (new_char : Char) : App :=
  App.move_cursor_right { a with input_str := a.input_str ++ [new_char] }

/-- `App::delete_char` (lines 69-79): when the cursor is not leftmost, keep
`chars().take(cursor-1)` and `chars().skip(cursor)`, then `move_cursor_left`. -/
def App.delete_char (a : App) : App :=
  if a.cursor_position ≠ 0 then
    App.move_cursor_left
      { a with input_str :=
          a.input_str.take (a.cursor_position - 1) ++ a.input_str.drop a.cursor_position }
  else a

/-- `App::enter_edit` (lines 99-101): sets `edit_mode` only; the buffer and
cursor are NOT touched. -/
def App.enter_edit (a : App) : App :=
  { a with edit_mode := true }

/-- `App::exit_edit` (lines 103-107). -/
def App.exit_edit (a : App) : App :=
  { a with edit_mode := false, input_str := [], cursor_position := 0 }

/-- The `reset` method of `App` (lines 131-133); named `reset_cmd` here because
`reset` is already the field's accessor. -/
def App.reset_cmd (a : App) : App :=
  { a with reset := true }

/-- `App::stop` (lines 135-139). -/
def App.stop (a : App) : App :=
  { a with time := 0, time_str := "00:00", reset := true }

/-! ### The duration parser (`App::parse_duration`, lines 109-129)

The Rust code checks `len() != 5 && len() != 8`, then runs
`Regex::new(r"(:?([01][0-9]|2[0-3]):)?([0-5][0-9]):([0-5][0-9])").captures`.
`captures` performs an UNANCHORED leftmost-first search.  The matcher below
reproduces that search: at each start position the backtracking preference
order is (group 1 with its optional leading colon) `:hh:mm:ss`, then
`hh:mm:ss`, then (group 1 absent) `mm:ss`; the leftmost position wins.
Absent hour group defaults to 0 via `map_or(0, ...)`. -/

/-- `[0-9]`. -/
def isDigitCh (c : Char) : Bool := '0' ≤ c && c ≤ '9'

/-- The hour pattern `[01][0-9]|2[0-3]`. -/
def hhOK (a b : Char) : Bool :=
  ((a = '0' || a = '1') && isDigitCh b) || (a = '2' && ('0' ≤ b && b ≤ '3'))

/-- The minute/second pattern `[0-5][0-9]`. -/
def msOK (a b : Char) : Bool := ('0' ≤ a && a ≤ '5') && isDigitCh b

/-- Numeric value of a two-digit field, as `str::parse::<u64>` reads it. -/
def val2 (a b : Char) : Nat := 10 * (a.toNat - 48) + (b.toNat - 48)

/-- Match `:hh:mm:ss` (group 1 taking its optional leading colon) at the head. -/
def matchColonHMS : List Char → Option (Nat × Nat × Nat)
  | c0 :: a :: b :: c1 :: c :: d :: c2 :: e :: f :: _ =>
    if c0 = ':' ∧ c1 = ':' ∧ c2 = ':' ∧ hhOK a b ∧ msOK c d ∧ msOK e f then
      some (val2 a b, val2 c d, val2 e f)
    else none
  | _ => none

/-- Match `hh:mm:ss` (group 1 without the optional colon) at the head. -/
def matchHMS : List Char → Option (Nat × Nat × Nat)
  | a :: b :: c1 :: c :: d :: c2 :: e :: f :: _ =>
    if c1 = ':' ∧ c2 = ':' ∧ hhOK a b ∧ msOK c d ∧ msOK e f then
      some (val2 a b, val2 c d, val2 e f)
    else none
  | _ => none

/-- Match `mm:ss` (group 1 absent, hours default to 0) at the head. -/
def matchMS : List Char → Option (Nat × Nat × Nat)
  | c :: d :: c2 :: e :: f :: _ =>
    if c2 = ':' ∧ msOK c d ∧ msOK e f then
      some (0, val2 c d, val2 e f)
    else none
  | _ => none

/-- All alternatives at one start position, in backtracking preference order. -/
def matchAt (cs : List Char) : Option (Nat × Nat × Nat) :=
  ((matchColonHMS cs).orElse fun _ => matchHMS cs).orElse fun _ => matchMS cs

/-- Leftmost match of the regex over the whole string, as `Regex::captures`
finds it: scan start positions left to right. -/
def findMatch : List Char → Option (Nat × Nat × Nat)
  | [] => none
  | c :: rest => (matchAt (c :: rest)).orElse fun _ => findMatch rest

/-- `App::parse_duration` (lines 109-129): length gate, then the unanchored
regex search; on a match, seconds `3600*h + 60*m + s`.  (`&self` is unused
in the source, so the embedding drops it.) -/
def App.parse_duration (duration : List Char) : Option Nat :=
  if byteLen duration ≠ 5 ∧ byteLen duration ≠ 8 then none
  else (findMatch duration).map fun t => 3600 * t.1 + 60 * t.2.1 + t.2.2

/-- `App::submit_time` (lines 55-67). -/
def App.submit_time (a : App) : App :=
  match App.parse_duration a.input_str with
  | some value =>
      { a with time := value, input_str := [], cursor_position := 0,
               reset := true, edit_mode := false }
  | none => a

/-- `SECS_IN_HOUR` (line 21). -/
def SECS_IN_HOUR : Nat := 3600

/-- `SECS_IN_MIN` (line 22). -/
def SECS_IN_MIN : Nat := 60

/-- Rust's `format!("{:02}", n)`: decimal, zero-padded to width 2. -/
def pad2 (n : Nat) : String := if n < 10 then "0" ++ toString n else toString n

/-- `remain_to_fmt` (lines 142-154). -/
def remain_to_fmt (remain : Nat) : String :=
  let hours := remain / SECS_IN_HOUR
  let minutes := (remain % SECS_IN_HOUR) / SECS_IN_MIN
  let seconds := remain % SECS_IN_MIN
  if hours = 0 then
    pad2 minutes ++ ":" ++ pad2 seconds
  else
    pad2 hours ++ ":" ++ pad2 minutes ++ ":" ++ pad2 seconds

/-- The per-tick recomputation of `run_app` (lines 347-364), as a function of
the deadline's start instant, the active target duration (`deadline`) and the
current instant.  Returns `none` when the tick is skipped (`deadline == 0`),
otherwise `some (new start instant, remaining duration)`; the loop then
displays `remain_to_fmt remaining` via `App::on_tick`.  The branch mirrors the
source: `if deadline < elapsed { start = Instant::now(); elapsed = start.elapsed(); }`,
so after a re-arm the elapsed time is `now - now`. -/
def tick_step (start deadline now : Nat) : Option (Nat × Nat) :=
  if deadline = 0 then none
  else
    let elapsed := now - start
    let p := if deadline < elapsed then (now, now - now) else (start, elapsed)
    some (p.1, deadline - p.2)

/-- Key events relevant to the dispatch in `run_app` (lines 300-345). -/
inductive Key where
  | enter
  | backspace
  | left
  | right
  | esc
  | char (c : Char)
  | other
deriving DecidableEq

/-- The key dispatch of `run_app` (lines 300-345): edit-mode routing vs
normal-mode routing.  `'q'` in normal mode exits the loop without touching
the state, so it falls under the identity default here. -/
def handle_key (a : App) (k : Key) : App :=
  if a.edit_mode then
    match k with
    | .enter => a.submit_time
    | .char c => a.enter_char c
    | .backspace => a.delete_char
    | .left => a.move_cursor_left
    | .right => a.move_cursor_right
    | .esc => a.exit_edit
    | .other => a
  else
    match k with
    | .char c =>
        if c = 'e' then a.enter_edit
        else if c = 'r' then a.reset_cmd
        else if c = 's' then a.stop
        else a
    | _ => a

/-- The edit-buffer operations of the spec's cursor invariant (insert,
backspace, cursor-left, cursor-right). -/
inductive EditOp where
  | insert (c : Char)
  | backspace
  | left
  | right
deriving DecidableEq

/-- Apply one edit-buffer operation (the edit-mode key handlers). -/
def applyOp (a : App) : EditOp → App
  | .insert c => a.enter_char c
  | .backspace => a.delete_char
  | .left => a.move_cursor_left
  | .right => a.move_cursor_right

/-- States reachable from `App::new` by key events and ticks. -/
inductive Reachable : App → Prop where
  | init : Reachable App.new
  | key (a : App) (k : Key) : Reachable a → Reachable (handle_key a k)
  | tick (a : App) (s : String) : Reachable a → Reachable (a.on_tick s)

/-- Canonical two-digit rendering of a field value below 100. -/
def twoDigits (n : Nat) : List Char := [Nat.digitChar (n / 10), Nat.digitChar (n % 10)]

/-! ### Helper lemmas -/

@[simp] lemma byteLen_nil : byteLen [] = 0 := rfl

@[simp] lemma byteLen_cons (c : Char) (cs : List Char) :
    byteLen (c :: cs) = c.utf8Size + byteLen cs := by
  simp [byteLen]

lemma byteLen_append (xs ys : List Char) : byteLen (xs ++ ys) = byteLen xs + byteLen ys := by
  simp [byteLen]

@[simp] lemma enter_char_edit_mode (a : App) (c : Char) :
    (a.enter_char c).edit_mode = a.edit_mode := rfl

@[simp] lemma delete_char_edit_mode (a : App) : a.delete_char.edit_mode = a.edit_mode := by
  unfold App.delete_char App.move_cursor_left
  split <;> rfl

@[simp] lemma move_left_edit_mode (a : App) : a.move_cursor_left.edit_mode = a.edit_mode := rfl

@[simp] lemma move_right_edit_mode (a : App) : a.move_cursor_right.edit_mode = a.edit_mode := rfl

/-- The Normal-mode invariant: outside edit mode, the edit buffer is empty and
the cursor is at 0. -/
def normInv (a : App) : Prop :=
  a.edit_mode = false → a.input_str = [] ∧ a.cursor_position = 0

lemma normInv_handle_key (a : App) (k : Key) (h : normInv a) : normInv (handle_key a k) := by
  unfold handle_key
  by_cases he : a.edit_mode = true
  · simp only [he, if_true]
    cases k with
    | enter =>
        rcases hp : App.parse_duration a.input_str with _ | v <;>
          simp [App.submit_time, hp, normInv, he]
    | char c => simp [normInv, he]
    | backspace => simp [normInv, he]
    | left => simp [normInv, he]
    | right => simp [normInv, he]
    | esc => simp [normInv, App.exit_edit]
    | other => exact h
  · have hfalse : a.edit_mode = false := by simpa using he
    simp only [hfalse, Bool.false_eq_true, if_false]
    cases k with
    | char c =>
        by_cases h1 : c = 'e'
        · simp [h1, normInv, App.enter_edit]
        · by_cases h2 : c = 'r'
          · simp only [h1, if_false, h2, if_true]
            intro _
            exact h hfalse
          · by_cases h3 : c = 's'
            · simp only [h1, h2, if_false, h3, if_true]
              intro _
              exact h hfalse
            · simp only [h1, h2, h3, if_false]
              exact h
    | enter => exact h
    | backspace => exact h
    | left => exact h
    | right => exact h
    | esc => exact h
    | other => exact h

lemma normInv_on_tick (a : App) (s : String) (h : normInv a) : normInv (a.on_tick s) := by
  intro hm
  exact h hm

lemma reachable_normInv (a : App) (h : Reachable a) : normInv a := by
  induction h with
  | init => intro _; exact ⟨rfl, rfl⟩
  | key a k _ ih => exact normInv_handle_key a k ih
  | tick a s _ ih => exact normInv_on_tick a s ih

/-! ### Claims -/

/-- Claim C1 (code bug): the validation regex in `App::parse_duration` is run
unanchored via `Regex::captures`, so the invalid 8-character input
`"24:00:00"` (hours out of the 00-23 range) is accepted: the regex matches the
substring `"24:00"` as an `mm:ss` shape and the parser returns 1440 seconds,
where the claim (and the spec) require a parse failure. -/
theorem c1_unanchored_regex_accepts_invalid :
    App.parse_duration "24:00:00".toList = some 1440 ∧
    App.parse_duration "24:00:00".toList ≠ none := by
  decide

/-- Claim C2 (amended): the character-insert operation appends the new
character at the END of the buffer (not at the cursor position) and sets the
cursor to `min (cursor+1) (byte length of the new buffer)`, which is exactly
`cursor + 1` whenever the cursor was within the old buffer's byte length. -/
theorem c2_enter_char_appends (a : App) (c : Char) :
    (a.enter_char c).input_str = a.input_str ++ [c] ∧
    (a.enter_char c).cursor_position =
      min (a.cursor_position + 1) (byteLen (a.input_str ++ [c])) ∧
    (a.cursor_position ≤ byteLen a.input_str →
      (a.enter_char c).cursor_position = a.cursor_position + 1) := by
  refine ⟨rfl, rfl, fun h => ?_⟩
  show min (a.cursor_position + 1) (byteLen (a.input_str ++ [c])) = a.cursor_position + 1
  have hb : byteLen (a.input_str ++ [c]) = byteLen a.input_str + c.utf8Size :=
    byteLen_append a.input_str [c]
  have hc : 0 < c.utf8Size := c.utf8Size_pos
  exact Nat.min_eq_left (by omega)

theorem c2_witness :
    (App.new.enter_char '1').input_str = ['1'] ∧
    (App.new.enter_char '1').cursor_position = 1 :=
  ⟨(c2_enter_char_appends App.new '1').1,
   (c2_enter_char_appends App.new '1').2.2 (Nat.le_refl 0)⟩

/-- Claim C2 counterexample: in the state with buffer `"ab"` and cursor 0
(reachable by typing `a`, `b` then moving left twice), the claim predicts
insertion at the cursor, i.e. buffer `"xab"`; the code's `push` appends at the
end, yielding `"abx"`. -/
theorem c2_counterexample :
    (App.enter_char { App.new with input_str := ['a', 'b'] } 'x').input_str =
      ['a', 'b', 'x'] ∧
    (App.enter_char { App.new with input_str := ['a', 'b'] } 'x').input_str ≠
      List.take 0 ['a', 'b'] ++ 'x' :: List.drop 0 ['a', 'b'] := by
  decide

/-- Claim C3 (amended): on a Normal-mode state, enter-edit switches the mode
to Editing and leaves the buffer and cursor exactly as they were (it performs
no clearing); on every REACHABLE Normal-mode state the buffer is already empty
and the cursor 0, so after enter-edit the buffer is still empty. -/
theorem c3_enter_edit_keeps_buffer (a : App) (h : a.edit_mode = false) :
    a.enter_edit.edit_mode = true ∧
    a.enter_edit.input_str = a.input_str ∧
    a.enter_edit.cursor_position = a.cursor_position ∧
    (Reachable a → a.enter_edit.input_str = [] ∧ a.enter_edit.cursor_position = 0) := by
  refine ⟨rfl, rfl, rfl, fun hr => ?_⟩
  exact reachable_normInv a hr h

theorem c3_witness :
    App.new.enter_edit.edit_mode = true ∧ App.new.enter_edit.input_str = [] :=
  ⟨(c3_enter_edit_keeps_buffer App.new rfl).1,
   ((c3_enter_edit_keeps_buffer App.new rfl).2.2.2 Reachable.init).1⟩

/-- Claim C3 counterexample: on a Normal-mode state whose buffer still holds
`"1"`, enter-edit switches to Editing but leaves the stale buffer in place
(`App::enter_edit` only sets `edit_mode = true`; it clears nothing). -/
theorem c3_counterexample :
    ({ App.new with input_str := ['1'], cursor_position := 1 } : App).edit_mode = false ∧
    (App.enter_edit { App.new with input_str := ['1'], cursor_position := 1 }).input_str ≠
      [] := by
  decide

/-- Claim C4: submitting while editing parses the buffer; on failure nothing
at all changes (in particular the mode stays Editing and buffer, cursor,
configured duration and pending-reset flag are untouched); on success the
configured duration becomes the parsed value, the buffer is cleared, the
cursor returns to 0, the pending-reset flag is raised and the mode returns to
Normal. -/
theorem c4_submit_time (a : App) (_hmode : a.edit_mode = true) :
    (App.parse_duration a.input_str = none → a.submit_time = a) ∧
    (∀ d : Nat, App.parse_duration a.input_str = some d →
      a.submit_time = { a with time := d, input_str := [], cursor_position := 0,
                               reset := true, edit_mode := false }) := by
  constructor
  · intro hp
    simp [App.submit_time, hp]
  · intro d hp
    simp [App.submit_time, hp]

theorem c4_witness :
    App.submit_time { App.new with
                      edit_mode := true
                      input_str := String.toList "00:05"
                      cursor_position := 5 } =
      { App.new with time := 5, reset := true } :=
  (c4_submit_time { App.new with
                    edit_mode := true
                    input_str := String.toList "00:05"
                    cursor_position := 5 } rfl).2 5 (by decide)

/-- Claim C5 (amended): the tick recomputation re-arms (start instant reset to
now, remaining back to the full target) only when the elapsed time STRICTLY
exceeds the nonzero target; when the elapsed time exactly equals the target
the start instant is kept and the remaining time is 0 for that tick (the
re-arm then happens on a later tick, once elapsed strictly exceeds). -/
theorem c5_tick_rearm (start deadline now : Nat) (hd : deadline ≠ 0) :
    (deadline < now - start → tick_step start deadline now = some (now, deadline)) ∧
    (now - start = deadline → tick_step start deadline now = some (start, 0)) := by
  constructor
  · intro hlt
    simp [tick_step, hd, hlt]
  · intro heq
    simp [tick_step, hd, heq]

theorem c5_witness :
    tick_step 0 5 6 = some (6, 5) ∧ tick_step 0 5 5 = some (0, 0) :=
  ⟨(c5_tick_rearm 0 5 6 (by decide)).1 (by decide),
   (c5_tick_rearm 0 5 5 (by decide)).2 (by decide)⟩

/-- Claim C5 counterexample: with start instant 0, target 5 and current
instant 5 the elapsed time MEETS the target, yet the step keeps the start
instant at 0 and displays remaining 0, instead of re-arming to start 5 with
the full target 5 remaining as the claim requires. -/
theorem c5_counterexample :
    tick_step 0 5 5 = some (0, 0) ∧ tick_step 0 5 5 ≠ some (5, 5) := by
  decide

/-- Claim C7: `remain_to_fmt` computes hours, minutes, seconds by division and
remainder and renders zero-padded `mm:ss` when the hour count is 0 and
`hh:mm:ss` otherwise; in particular on 0, 59, 60, 3599, 3600 and 86399 it
yields the six strings stated by the spec. -/
theorem c7_remain_to_fmt :
    (∀ n : Nat, remain_to_fmt n =
      if n / 3600 = 0 then pad2 ((n % 3600) / 60) ++ ":" ++ pad2 (n % 60)
      else pad2 (n / 3600) ++ ":" ++ pad2 ((n % 3600) / 60) ++ ":" ++ pad2 (n % 60)) ∧
    remain_to_fmt 0 = "00:00" ∧ remain_to_fmt 59 = "00:59" ∧
    remain_to_fmt 60 = "01:00" ∧ remain_to_fmt 3599 = "59:59" ∧
    remain_to_fmt 3600 = "01:00:00" ∧ remain_to_fmt 86399 = "23:59:59" := by
  refine ⟨fun n => rfl, ?_, ?_, ?_, ?_, ?_, ?_⟩ <;> decide

/-- Every single edit operation leaves the cursor within the byte length of
the buffer, from any starting state. -/
lemma applyOp_cursor_le (a : App) (op : EditOp) :
    (applyOp a op).cursor_position ≤ byteLen (applyOp a op).input_str := by
  cases op with
  | insert c =>
      show min (a.cursor_position + 1) (byteLen (a.input_str ++ [c])) ≤
        byteLen (a.input_str ++ [c])
      exact Nat.min_le_right _ _
  | backspace =>
      show a.delete_char.cursor_position ≤ byteLen a.delete_char.input_str
      unfold App.delete_char
      split
      · exact Nat.min_le_right _ _
      · next hc =>
          have h0 : a.cursor_position = 0 := by simpa using hc
          simp [h0]
  | left => exact Nat.min_le_right _ _
  | right => exact Nat.min_le_right _ _

lemma foldl_cursor_le (ops : List EditOp) :
    ∀ a : App, a.cursor_position ≤ byteLen a.input_str →
      (List.foldl applyOp a ops).cursor_position ≤
        byteLen (List.foldl applyOp a ops).input_str := by
  induction ops with
  | nil => intro a h; simpa using h
  | cons op ops ih =>
      intro a _
      simpa using ih (applyOp a op) (applyOp_cursor_le a op)

/-- Claim C8 (amended): after any sequence of insert/backspace/left/right
operations starting from the empty buffer with cursor 0, the cursor stays
within `[0, UTF-8 byte length of the buffer]` (the code clamps against
`String::len`, which counts bytes); the bound by the CHARACTER count claimed
by the spec coincides with this for ASCII input but fails for multi-byte
characters.  Every intermediate state is itself the fold of a prefix, so this
covers "after every step". -/
theorem c8_cursor_invariant (ops : List EditOp) :
    (List.foldl applyOp App.new ops).cursor_position ≤
      byteLen (List.foldl applyOp App.new ops).input_str :=
  foldl_cursor_le ops App.new (Nat.le_refl 0)

/-- Claim C8 counterexample: inserting the 2-byte character 'é' and then
moving right leaves the cursor at 2 while the buffer holds a single
character, so the cursor exceeds the buffer's character count. -/
theorem c8_counterexample :
    ¬ (List.foldl applyOp App.new [EditOp.insert 'é', EditOp.right]).cursor_position ≤
        (List.foldl applyOp App.new [EditOp.insert 'é', EditOp.right]).input_str.length := by
  decide

/-- Claim C9: from every prior state, `App::stop` yields the display string
`"00:00"`, configured duration 0 and a raised pending-reset flag. -/
theorem c9_stop (a : App) :
    a.stop.time_str = "00:00" ∧ a.stop.time = 0 ∧ a.stop.reset = true :=
  ⟨rfl, rfl, rfl⟩

/-- Facts about the two-digit rendering of a minute/second value. -/
lemma ms_digit_facts : ∀ n : Nat, n < 60 →
    msOK (Nat.digitChar (n / 10)) (Nat.digitChar (n % 10)) = true ∧
    val2 (Nat.digitChar (n / 10)) (Nat.digitChar (n % 10)) = n ∧
    (Nat.digitChar (n / 10)).utf8Size = 1 ∧ (Nat.digitChar (n % 10)).utf8Size = 1 := by
  decide

/-- Facts about the two-digit rendering of an hour value. -/
lemma hh_digit_facts : ∀ n : Nat, n < 24 →
    hhOK (Nat.digitChar (n / 10)) (Nat.digitChar (n % 10)) = true ∧
    val2 (Nat.digitChar (n / 10)) (Nat.digitChar (n % 10)) = n ∧
    (Nat.digitChar (n / 10)).utf8Size = 1 ∧ (Nat.digitChar (n % 10)).utf8Size = 1 := by
  decide

lemma colon_utf8Size : (':' : Char).utf8Size = 1 := by decide

lemma matchColonHMS_eight (a b c1 c d c2 e f : Char) :
    matchColonHMS [a, b, c1, c, d, c2, e, f] = none := rfl

lemma matchColonHMS_five (a b c1 c d : Char) :
    matchColonHMS [a, b, c1, c, d] = none := rfl

lemma matchHMS_five (a b c1 c d : Char) : matchHMS [a, b, c1, c, d] = none := rfl

lemma matchHMS_eight (a b c d e f : Char) (ha : hhOK a b = true) (hc : msOK c d = true)
    (he : msOK e f = true) :
    matchHMS [a, b, ':', c, d, ':', e, f] = some (val2 a b, val2 c d, val2 e f) := by
  simp [matchHMS, ha, hc, he]

lemma matchMS_five (c d e f : Char) (hc : msOK c d = true) (he : msOK e f = true) :
    matchMS [c, d, ':', e, f] = some (0, val2 c d, val2 e f) := by
  simp [matchMS, hc, he]

/-- Claim C6: on every canonically rendered valid `hh:mm:ss` (hours 0-23,
minutes and seconds 0-59) the parser returns `3600*h + 60*m + s` seconds, and
on every valid `mm:ss` it returns `60*m + s` seconds. -/
theorem c6_parse_valid :
    (∀ h m s : Nat, h < 24 → m < 60 → s < 60 →
      App.parse_duration (twoDigits h ++ ':' :: twoDigits m ++ ':' :: twoDigits s) =
        some (3600 * h + 60 * m + s)) ∧
    (∀ m s : Nat, m < 60 → s < 60 →
      App.parse_duration (twoDigits m ++ ':' :: twoDigits s) = some (60 * m + s)) := by
  constructor
  · intro h m s hh hm hs
    obtain ⟨hok, hval, hsz1, hsz2⟩ := hh_digit_facts h hh
    obtain ⟨mok, mval, msz1, msz2⟩ := ms_digit_facts m hm
    obtain ⟨sok, sval, ssz1, ssz2⟩ := ms_digit_facts s hs
    simp only [twoDigits, List.cons_append, List.nil_append]
    rw [App.parse_duration]
    rw [if_neg (by simp [hsz1, hsz2, msz1, msz2, ssz1, ssz2, colon_utf8Size])]
    rw [findMatch]
    rw [show matchAt
        [Nat.digitChar (h / 10), Nat.digitChar (h % 10), ':', Nat.digitChar (m / 10),
         Nat.digitChar (m % 10), ':', Nat.digitChar (s / 10), Nat.digitChar (s % 10)] =
        some (h, m, s) from by
      rw [matchAt, matchColonHMS_eight, matchHMS_eight _ _ _ _ _ _ hok mok sok,
        hval, mval, sval]
      rfl]
    rfl
  · intro m s hm hs
    obtain ⟨mok, mval, msz1, msz2⟩ := ms_digit_facts m hm
    obtain ⟨sok, sval, ssz1, ssz2⟩ := ms_digit_facts s hs
    simp only [twoDigits, List.cons_append, List.nil_append]
    rw [App.parse_duration]
    rw [if_neg (by simp [msz1, msz2, ssz1, ssz2, colon_utf8Size])]
    rw [findMatch]
    rw [show matchAt
        [Nat.digitChar (m / 10), Nat.digitChar (m % 10), ':', Nat.digitChar (s / 10),
         Nat.digitChar (s % 10)] = some (0, m, s) from by
      rw [matchAt, matchColonHMS_five, matchHMS_five, matchMS_five _ _ _ _ mok sok,
        mval, sval]
      rfl]
    simp

theorem c6_witness :
    App.parse_duration (twoDigits 1 ++ ':' :: twoDigits 2 ++ ':' :: twoDigits 3) =
      some 3723 ∧
    App.parse_duration (twoDigits 4 ++ ':' :: twoDigits 5) = some 245 :=
  ⟨c6_parse_valid.1 1 2 3 (by decide) (by decide) (by decide),
   c6_parse_valid.2 4 5 (by decide) (by decide)⟩

/-- Claim C10: every state reachable from the initial state by key events and
ticks satisfies: whenever the mode is Normal, the edit buffer is empty and the
cursor position is 0. -/
theorem c10_normal_invariant (a : App) (h : Reachable a) (hm : a.edit_mode = false) :
    a.input_str = [] ∧ a.cursor_position = 0 :=
  reachable_normInv a h hm

theorem c10_witness : App.new.input_str = [] ∧ App.new.cursor_position = 0 :=
  c10_normal_invariant App.new Reachable.init rfl

end Pomidor
